import Mathlib

/-
Verification of the routing and tunneling core of the code-server proxy
(package `proxy`, file proxy.go, and the websocket relay source that
completes it).  The definitions below are a shallow embedding of that Go
code: pure Go functions become Lean functions, handler bodies become
functions from an explicit registry state and the request data to a
(state, written-response) pair, and the external collaborators that the
handlers consume (the go-radix tree, `path.Dir`, `net/url.Parse`,
`strconv.Atoi`, the HTTP client, the probe transport) are modelled by
their observable contracts, each with a doc comment naming the original.
-/

set_option autoImplicit false

namespace CSP

/-- Boolean test that the first character list is a leading segment of the
second; used to model Go string-prefix operations over `String.data`. -/
def chIsPref : List Char → List Char → Bool
  | [], _ => true
  | _ :: _, [] => false
  | a :: as, b :: bs => a = b && chIsPref as bs

/-- Models `strings.HasPrefix s pre` from the Go standard library. -/
def strHasPref (s pre : String) : Bool := chIsPref pre.data s.data

/-- Models `strings.TrimPrefix s pre`: drops `pre` when it leads `s`,
otherwise returns `s` unchanged. -/
def trimPref (s pre : String) : String :=
  if strHasPref s pre then String.mk (s.data.drop pre.data.length) else s

/-- Models `strings.HasSuffix s suf`. -/
def strHasSuf (s suf : String) : Bool := chIsPref suf.data.reverse s.data.reverse

/-- Models `strings.TrimSuffix s suf`: drops one trailing occurrence of
`suf` when present. -/
def trimSuf (s suf : String) : String :=
  if strHasSuf s suf then String.mk (s.data.take (s.data.length - suf.data.length)) else s

/-- The routing table (field `portMap` of `Proxy`).  The source stores it in
a `github.com/armon/go-radix` tree; the tree is an external collaborator, so
it is modelled by its observable contract: a string-keyed finite map with
overwrite-on-duplicate insert, delete, exact `Get`, and `LongestPrefix`
(the stored key that is the longest string prefix of the query). -/
abbrev RTable := List (String × Int)

/-- Models `radix.Tree.Insert`: overwrites the value on a duplicate key,
otherwise adds the binding. -/
def rtInsert : RTable → String → Int → RTable
  | [], k, v => [(k, v)]
  | (a, b) :: rest, k, v =>
    if a = k then (k, v) :: rest else (a, b) :: rtInsert rest k v

/-- Models `radix.Tree.Get`: exact-key lookup. -/
def rtGet : RTable → String → Option Int
  | [], _ => none
  | (a, b) :: rest, q => if q = a then some b else rtGet rest q

/-- Models `radix.Tree.Delete`: removes the binding of the key if present. -/
def rtDelete : RTable → String → RTable
  | [], _ => []
  | (a, b) :: rest, k => if a = k then rest else (a, b) :: rtDelete rest k

/-- Models `radix.Tree.LongestPrefix q`: among the stored keys that are
string prefixes of `q`, returns the longest one together with its value
(`none` when no key is a prefix of `q`). -/
def rtLongest : RTable → String → Option (String × Int)
  | [], _ => none
  | (a, v) :: rest, q =>
    match rtLongest rest q with
    | none => if chIsPref a.data q.data then some (a, v) else none
    | some c =>
      if chIsPref a.data q.data && decide (c.1.data.length < a.data.length) then
        some (a, v)
      else some c

/-- The alias index (field `aliasToPath` of `Proxy`), a Go
`map[string]string` modelled as an association list with
overwrite-on-duplicate insert. -/
abbrev AMap := List (String × String)

/-- Models assignment `m[k] = v` on the Go map. -/
def amInsert : AMap → String → String → AMap
  | [], k, v => [(k, v)]
  | (a, b) :: rest, k, v =>
    if a = k then (k, v) :: rest else (a, b) :: amInsert rest k v

/-- Models lookup `m[k]` on the Go map (`none` when the key is absent). -/
def amGet : AMap → String → Option String
  | [], _ => none
  | (a, b) :: rest, q => if q = a then some b else amGet rest q

/-- Models `delete(m, k)` on the Go map. -/
def amDelete : AMap → String → AMap
  | [], _ => []
  | (a, b) :: rest, k => if a = k then rest else (a, b) :: amDelete rest k

/-- Splits a character list on a separator; companion of Go
`strings.Split` used only inside the `path.Clean` model below. -/
def chSplit (sep : Char) : List Char → List (List Char)
  | [] => [[]]
  | c :: cs =>
    let r := chSplit sep cs
    if c = sep then [] :: r
    else
      match r with
      | s :: rest => (c :: s) :: rest
      | [] => [[c]]

/-- Segment-stack core of the `path.Clean` model: consumes the split
segments, dropping empty and `.` segments, resolving `..` against the
stack (a rooted path cannot climb above the root), and returns the
remaining segments in order. -/
def cleanCore (rooted : Bool) : List (List Char) → List (List Char) → List (List Char)
  | stack, [] => stack.reverse
  | stack, seg :: rest =>
    if seg = ([] : List Char) ∨ seg = ['.'] then cleanCore rooted stack rest
    else if seg = ['.', '.'] then
      match stack with
      | [] => if rooted then cleanCore rooted [] rest else cleanCore rooted [['.', '.']] rest
      | top :: stk =>
        if top = ['.', '.'] then cleanCore rooted (seg :: (top :: stk)) rest
        else cleanCore rooted stk rest
    else cleanCore rooted (seg :: stack) rest

/-- Joins segments with `/` separators. -/
def joinSegs : List (List Char) → List Char
  | [] => []
  | [s] => s
  | s :: rest => s ++ '/' :: joinSegs rest

/-- Models `path.Clean` from the Go standard library (segment-stack
formulation of its lexical algorithm): empty input gives `.`, rooted
results keep the leading `/`, a fully-cancelled relative path gives `.`. -/
def goClean (p : String) : String :=
  if p.data = [] then "."
  else
    let rooted := match p.data with | '/' :: _ => true | _ => false
    let segs := cleanCore rooted [] (chSplit '/' p.data)
    let joined := joinSegs segs
    if rooted then String.mk ('/' :: joined)
    else if joined = [] then "." else String.mk joined

/-- Everything of the character list up to and including its last `/`
(empty when there is no `/`); the `dir` half of Go `path.Split`. -/
def chDirPart (cs : List Char) : List Char :=
  (cs.reverse.dropWhile (fun c => ¬ c = '/')).reverse

/-- Models `path.Dir` from the Go standard library:
`Dir(p) = Clean(dir)` where `dir` is everything up to and including the
last slash of `p`. -/
def pathDir (p : String) : String := goClean (String.mk (chDirPart p.data))

/-- A `Server` of proxy.go: one registered code-server backend. -/
structure Server where
  Path : String
  Alias : String
  Port : Int
deriving DecidableEq

/-- The registry state owned by `Proxy`: the backend collection
(`code.Servers`), the routing table (`portMap`) and the alias index
(`aliasToPath`). -/
structure ProxyState where
  servers : List Server
  portMap : RTable
  aliasToPath : AMap
deriving DecidableEq

/-- The three routing-table keys derived from one backend, in the
insertion order used by `NewProxy` and `registerHandler`: the path, its
parent directory, and the `/alias` form. -/
def triple (s : Server) : List String :=
  [s.Path, pathDir s.Path, "/" ++ s.Alias]

/-- One loop body of the routing-table construction: the three
`portMap.Insert` calls that `NewProxy` and `registerHandler` perform for
one backend, all with the backend's port as value. -/
def insertServerKeys (m : RTable) (s : Server) : RTable :=
  rtInsert (rtInsert (rtInsert m s.Path s.Port) (pathDir s.Path) s.Port) ("/" ++ s.Alias) s.Port

/-- The routing-table construction loop of `NewProxy`. -/
def buildPortMap (servers : List Server) : RTable :=
  servers.foldl insertServerKeys []

/-- The alias-index construction loop of `NewProxy`
(`p.aliasToPath[s.Alias] = s.Path` over all servers). -/
def buildAliasMap (servers : List Server) : AMap :=
  servers.foldl (fun m s => amInsert m s.Alias s.Path) []

/-- The registry part of `NewProxy`: builds the routing table and the
alias index from the configured backend set. -/
def newProxy (servers : List Server) : ProxyState :=
  ⟨servers, buildPortMap servers, buildAliasMap servers⟩

/-- Scans a character list until the given character (dropping it and the
rest); used to cut the fragment and query parts in the URL model. -/
def chTakeUntil (stop : Char) : List Char → List Char
  | [] => []
  | c :: cs => if c = stop then [] else c :: chTakeUntil stop cs

/-- The characters after the first `://` occurrence, `none` when there is
no such occurrence. -/
def afterScheme : List Char → Option (List Char)
  | ':' :: '/' :: '/' :: rest => some rest
  | _ :: cs => afterScheme cs
  | [] => none

/-- Drops host characters until the first `/` (kept), so that what remains
is the path component; empty when the URL has no path. -/
def chFromSlash : List Char → List Char
  | [] => []
  | '/' :: cs => '/' :: cs
  | c :: cs => if c = '/' then c :: cs else chFromSlash cs

/-- Models the `net/url.Parse` call of `getPort` as used on Referer
headers: `Parse` rejects a raw URL containing an ASCII control character
(`net/url: invalid control character in URL`); on success `getPort` reads
only `u.Path`, which for an absolute `scheme://host/path?query#frag` URL
is the `/path` part, and for a scheme-less reference is the string up to
the query or fragment. -/
def urlParse (s : String) : Option String :=
  if s.data.any (fun c => c.toNat < 32 || c.toNat = 127) then none
  else
    let cs := chTakeUntil '#' s.data
    let cs := chTakeUntil '?' cs
    match afterScheme cs with
    | some rest => some (String.mk (chFromSlash rest))
    | none => some (String.mk cs)

/-- Models `strconv.Atoi` on the digits and sign forms it accepts (the
word-size range check does not matter at these magnitudes): `none` exactly
when the string is not a non-empty optionally-signed digit string. -/
def digitsVal (cs : List Char) : Option Nat :=
  match cs with
  | [] => none
  | _ =>
    cs.foldl
      (fun acc c => acc.bind (fun n => if c.isDigit then some (n * 10 + (c.toNat - 48)) else none))
      (some 0)

/-- Models `strconv.Atoi` (see `digitsVal`). -/
def atoi (s : String) : Option Int :=
  match s.data with
  | '+' :: rest => (digitsVal rest).map (fun n => (n : Int))
  | '-' :: rest => (digitsVal rest).map (fun n => -(n : Int))
  | cs => (digitsVal cs).map (fun n => (n : Int))

/-- Outcome of `getPort`.  `fatal` is the `logger.Fatalf` branch taken
when `url.Parse` rejects a non-empty Referer header — `Fatalf` exits the
process.  `panicked` is the runtime index-out-of-range panic of
`p.code.Servers[0]` on an empty backend collection. -/
inductive PortResult where
  | fatal
  | panicked
  | ok (port : Int)
deriving DecidableEq

/-- Models `getPort`: the request path is replaced by the parsed Referer
path when the Referer header is non-empty (a parse failure is fatal); the
default port is the first registered backend's (reading `Servers[0]`
panics when the collection is empty); a longest-prefix match overrides
the default. -/
def getPort (st : ProxyState) (requestURI referer : String) : PortResult :=
  let pathRes : Option String :=
    if referer = "" then some requestURI else urlParse referer
  match pathRes with
  | none => .fatal
  | some requestPath =>
    match st.servers with
    | [] => .panicked
    | s0 :: _ =>
      .ok (match rtLongest st.portMap requestPath with
           | some c => c.2
           | none => s0.Port)

/-- Models `cleanRequestPath`: strips the longest routing-table prefix of
the request path (the go-radix `LongestPrefix` returns the empty string on
a miss, so a miss strips nothing), then re-prepends the code-server
`/login` segment when the residue starts with it. -/
def cleanRequestPath (st : ProxyState) (requestPath : String) : String :=
  let pre := match rtLongest st.portMap requestPath with
             | some c => c.1
             | none => ""
  let rp := trimPref requestPath pre
  if strHasPref rp "/login" then "/login" ++ rp else rp

/-- The decoded body of a registration request (`RegisterRequest` of
proxy.go, JSON fields folder/name/port with port still a string). -/
structure RegisterRequest where
  Folder : String
  Name : String
  Port : String
deriving DecidableEq

/-- What a handler writes back on the `http.ResponseWriter`.  `noStatus`
is the early-`return` path that writes nothing at all (the Go HTTP server
then closes the response with an implicit `200` and empty body). -/
inductive HttpOut where
  | noStatus
  | badRequest (msg : String)
  | ok
  | noContent
deriving DecidableEq

/-- The duplicate-alias/duplicate-port scan of `registerHandler`: both
arms of the Go loop answer 400 with the same `Name %s is in use`
message. -/
def findConflict (servers : List Server) (name : String) (port : Int) : Bool :=
  servers.any (fun s => s.Alias = name || s.Port = port)

/-- Models `registerHandler`.  The body-decode outcome is passed in
(`none` models a `json.Decoder.Decode` error).  Decode and `Atoi`
failures log and `return` without writing a response; a duplicate alias
or port answers 400; otherwise the backend is appended, the three
routing-table keys are inserted, the alias index is updated, and the
handler answers 200.  (The asynchronous `WriteConfig` call touches no
registry state.)  `registerSuccessState` is the state after the success
branch's three mutations. -/
def registerSuccessState (st : ProxyState) (data : RegisterRequest) (port : Int) :
    ProxyState :=
  { servers := st.servers ++ [⟨data.Folder, data.Name, port⟩],
    portMap := insertServerKeys st.portMap ⟨data.Folder, data.Name, port⟩,
    aliasToPath := amInsert st.aliasToPath data.Name data.Folder }

/-- Models `registerHandler` (see the comment on `registerSuccessState`). -/
def registerHandler (st : ProxyState) (body : Option RegisterRequest) :
    ProxyState × HttpOut :=
  match body with
  | none => (st, .noStatus)
  | some data =>
    match atoi data.Port with
    | none => (st, .noStatus)
    | some port =>
      if findConflict st.servers data.Name port then
        (st, .badRequest ("Name " ++ data.Name ++ " is in use"))
      else
        (registerSuccessState st data port, .ok)

/-- Removes the first backend whose alias matches (the Go loop splices the
slice at the first match and breaks). -/
def removeFirst : List Server → String → List Server
  | [], _ => []
  | s :: rest, name => if s.Alias = name then rest else s :: removeFirst rest name

/-- First mutation step of `removeHandler`'s success path: splice the
backend out of `p.code.Servers`. -/
def removeStep1 (name : String) (st : ProxyState) : ProxyState :=
  { st with servers := removeFirst st.servers name }

/-- Second mutation step of `removeHandler`: `p.portMap.Delete("/" + name)`. -/
def removeStep2 (name : String) (st : ProxyState) : ProxyState :=
  { st with portMap := rtDelete st.portMap ("/" ++ name) }

/-- Third mutation step of `removeHandler`: `delete(p.aliasToPath, name)`. -/
def removeStep3 (name : String) (st : ProxyState) : ProxyState :=
  { st with aliasToPath := amDelete st.aliasToPath name }

/-- Models `removeHandler`: unknown alias answers 400; otherwise the three
mutation steps run in order and the handler answers 204. -/
def removeHandler (st : ProxyState) (name : String) : ProxyState × HttpOut :=
  match amGet st.aliasToPath name with
  | none => (st, .badRequest ("Code-server " ++ name ++ " does not exist"))
  | some _ => (removeStep3 name (removeStep2 name (removeStep1 name st)), .noContent)

/-- The consistency of the registry triple that claim C9 says concurrent
dispatches always observe: every alias-index entry has its `/alias`
routing-table entry. -/
def tripleConsistent (st : ProxyState) : Prop :=
  ∀ a p, amGet st.aliasToPath a = some p → ∃ v, rtGet st.portMap ("/" ++ a) = some v

/-- The routing part of `websocketHandler`: the `{filePath}` variable (the
request path without its leading slash) is mapped through the alias index
when it is a registered alias and re-prefixed with `/` otherwise, one
trailing slash is trimmed, and the dialed port is the exact `portMap.Get`
of the result — `none` models the untyped nil port that produces an
undialable `localhost:%!d(<nil>)` host. -/
def wsResolvePort (st : ProxyState) (filePathVar : String) : Option Int :=
  let fp := match amGet st.aliasToPath filePathVar with
            | none => "/" ++ filePathVar
            | some pth => pth
  rtGet st.portMap (trimSuf fp "/")

/-- The outbound request that `forwardRequestHandler` builds: original
method, a reference to the original header map, and the backend target
`http://localhost:port` with the cleaned path. -/
structure OutboundRequest where
  method : String
  headers : List (String × String)
  port : Int
  path : String
deriving DecidableEq

/-- What executing the outbound request (`p.client.Do`) yields: a
transport error, or the backend's response.  `copyErr` records whether
the later `io.Copy` of the response body onto the client connection
fails (a property of the client-facing connection). -/
inductive DoResult where
  | transportError (msg : String)
  | response (status : Nat) (headers : List (String × String)) (body : String) (copyErr : Bool)
deriving DecidableEq

/-- Observable outcome of `forwardRequestHandler` on the original caller.
`fatal`/`panicked` propagate from `getPort`.  `errorStatus` is an
`http.Error` call before anything else was written.  `success` records
the outbound request that was executed and what was written back: the Go
code never calls `w.WriteHeader` with the backend's status, so the first
body write commits the implicit status 200; the backend's headers and
body are copied verbatim.  `copyError` is the `http.Error 500` issued
after the headers were already copied, when the body copy fails. -/
inductive ForwardOutcome where
  | fatal
  | panicked
  | errorStatus (status : Nat)
  | success (outbound : OutboundRequest) (writtenStatus : Nat)
      (headers : List (String × String)) (body : String)
  | copyError (outbound : OutboundRequest) (status : Nat)
deriving DecidableEq

/-- Models `forwardRequestHandler`.  `doRes` is the behaviour of the HTTP
client on the outbound request (`http.NewRequest` on the URL the handler
itself builds cannot fail, so no branch models it).  Both the transport
error and the body-copy error go through `http.Error(w, …,
http.StatusInternalServerError)`, i.e. 500. -/
def forwardRequestHandler (st : ProxyState) (method : String)
    (headers : List (String × String)) (requestURI referer : String)
    (doRes : OutboundRequest → DoResult) : ForwardOutcome :=
  match getPort st requestURI referer with
  | .fatal => .fatal
  | .panicked => .panicked
  | .ok port =>
    let outb : OutboundRequest := ⟨method, headers, port, cleanRequestPath st requestURI⟩
    match doRes outb with
    | .transportError _ => .errorStatus 500
    | .response _ respHeaders body copyErr =>
      if copyErr then .copyError outb 500
      else .success outb 200 respHeaders body

/-- The body that the liveness probe of `checkCodeServerStatus` reads
after a connection succeeded: an `ioutil.ReadAll` failure, a
`json.Unmarshal` failure, or a decoded `CodeServerPingResponse` with its
`hostname` field. -/
inductive PingBody where
  | readError (e : String)
  | malformed (e : String)
  | ping (hostname : String)
deriving DecidableEq

/-- What the `http.Get` probe of `checkCodeServerStatus` yields: a
transport error, or a response with a status code and a body. -/
inductive ProbeResult where
  | transportError (e : String)
  | response (status : Nat) (body : PingBody)
deriving DecidableEq

/-- Models `checkCodeServerStatus`: the inner branch runs only when the
probe succeeded with status exactly `http.StatusOK` (200); inside it a
read or unmarshal failure returns the pair `("", err)`; a non-empty
hostname upgrades the state to `"OK"`; every other path returns
`("NOT OK", nil)`. -/
def checkCodeServerStatus (probe : ProbeResult) : String × Option String :=
  match probe with
  | .transportError _ => ("NOT OK", none)
  | .response status body =>
    if status = 200 then
      match body with
      | .readError e => ("", some e)
      | .malformed e => ("", some e)
      | .ping hostname => (if hostname ≠ "" then "OK" else "NOT OK", none)
    else ("NOT OK", none)

/-- Outcome of `json.Marshal` on the aggregated healthcheck response,
passed into the tail of `healthCheckHandler`. -/
inductive MarshalResult where
  | ok (bytes : String)
  | err (e : String)
deriving DecidableEq

/-- Observable outcome of the response-writing tail of
`healthCheckHandler` on the caller. -/
inductive HealthOut where
  | fatal
  | wrote (body : String)
  | errorStatus (status : Nat)
deriving DecidableEq

/-- Models the response-writing tail of `healthCheckHandler` (the probe
aggregation above it only assembles the body): a `json.Marshal` failure
is `logger.Fatalf` — process exit — and a `w.Write` failure answers 500. -/
def healthCheckHandlerTail (marshal : MarshalResult) (writeOk : Bool) : HealthOut :=
  match marshal with
  | .err _ => .fatal
  | .ok bytes => if writeOk then .wrote bytes else .errorStatus 500

/-- One read outcome on the source connection of a relay direction:
a message of a type and payload, or a read error from `NextReader`, or a
write-side error (`NextWriter` or the payload copy). -/
inductive TunnelEvent where
  | msg (msgType : Nat) (payload : String)
  | readErr (e : String)
  | writeErr (e : String)
deriving DecidableEq

/-- Models the `tunnel` function: one `NextReader`/`NextWriter`/copy
round, forwarding one message or returning the first error hit. -/
def tunnelStep : TunnelEvent → Except String (Nat × String)
  | .msg t p => .ok (t, p)
  | .readErr e => .error e
  | .writeErr e => .error e

/-- Models the `for` loop of `transfer` over a finite schedule of read
outcomes: each iteration calls `tunnel` once; a nil result forwards the
message, an error is sent on the per-direction channel `ch` — and the
loop body has no `break` or `return`, so the next iteration runs either
way.  The result collects, in order, the messages forwarded to `dst` and
the errors sent (or attempted) on `ch`. -/
def transferRun : List TunnelEvent → List (Nat × String) × List String
  | [] => ([], [])
  | ev :: rest =>
    let r := transferRun rest
    match tunnelStep ev with
    | .ok m => (m :: r.1, r.2)
    | .error e => (r.1, e :: r.2)

/-- The relay loop that the specification describes (stated from the
spec's words, for comparison with `transferRun`): forward messages one at
a time until the first read or write error, report that error on the
per-direction channel, and stop. -/
def transferSpec : List TunnelEvent → List (Nat × String) × List String
  | [] => ([], [])
  | ev :: rest =>
    match tunnelStep ev with
    | .ok m =>
      let r := transferSpec rest
      (m :: r.1, r.2)
    | .error e => ([], [e])

/-- The single-backend registry of the specification's resolution
scenario: path `/a/b`, alias `proj1`, port 9000. -/
def sampleState : ProxyState := newProxy [⟨"/a/b", "proj1", 9000⟩]

/-- The initial backend set falsifying the routing-triple invariant as
claimed: two backends with distinct aliases and distinct ports whose
paths share the parent directory `/a`. -/
def clashServers : List Server := [⟨"/a/b", "x", 1⟩, ⟨"/a/c", "y", 2⟩]

/-- Disjointness of the derived routing-key triples of two backends: no
key derived from the first is also derived from the second. -/
def disjTriple (s t : Server) : Prop := ∀ k ∈ triple s, k ∉ triple t

instance (s t : Server) : Decidable (disjTriple s t) := by
  unfold disjTriple; infer_instance

/-- The registry routing-triple invariant of the specification: every
backend's three derived keys are routing-table entries carrying its port,
and the alias index maps its alias to its path. -/
def registryInvariant (st : ProxyState) : Prop :=
  ∀ b ∈ st.servers,
    (∀ k ∈ triple b, rtGet st.portMap k = some b.Port) ∧
    amGet st.aliasToPath b.Alias = some b.Path

instance (st : ProxyState) : Decidable (registryInvariant st) := by
  unfold registryInvariant; infer_instance

/-- A forward outcome that ends with a definite HTTP response to the
caller, as opposed to terminating the process. -/
def definiteOutcome (o : ForwardOutcome) : Prop :=
  o ≠ ForwardOutcome.fatal ∧ o ≠ ForwardOutcome.panicked

/-- The keys of a routing table, in storage order. -/
def rtKeys (m : RTable) : List String := m.map Prod.fst

/-- `chIsPref` is reflexive. -/
theorem chIsPref_refl (l : List Char) : chIsPref l l = true := by
  induction l with
  | nil => rfl
  | cons a as ih => simp [chIsPref, ih]

/-- A leading segment is no longer than the whole. -/
theorem chIsPref_length {a b : List Char} (h : chIsPref a b = true) :
    a.length ≤ b.length := by
  induction a generalizing b with
  | nil => simp
  | cons x xs ih =>
    cases b with
    | nil => simp [chIsPref] at h
    | cons y ys =>
      simp only [chIsPref, Bool.and_eq_true, decide_eq_true_eq] at h
      simpa using ih h.2

/-- A leading segment of equal length is the whole. -/
theorem chIsPref_eq_of_length {a b : List Char} (h : chIsPref a b = true)
    (hl : a.length = b.length) : a = b := by
  induction a generalizing b with
  | nil => cases b with | nil => rfl | cons y ys => simp at hl
  | cons x xs ih =>
    cases b with
    | nil => simp [chIsPref] at h
    | cons y ys =>
      simp only [chIsPref, Bool.and_eq_true, decide_eq_true_eq] at h
      simp only [List.length_cons, Nat.add_right_cancel_iff] at hl
      rw [h.1, ih h.2 hl]

/-- Strings with equal character lists are equal. -/
theorem strData_inj {a b : String} (h : a.data = b.data) : a = b :=
  congrArg String.mk h

/-- Exact lookup after an overwrite-insert. -/
theorem rtGet_rtInsert (m : RTable) (k : String) (v : Int) (q : String) :
    rtGet (rtInsert m k v) q = if q = k then some v else rtGet m q := by
  induction m with
  | nil => simp [rtInsert, rtGet]
  | cons p rest ih =>
    obtain ⟨a, b⟩ := p
    by_cases hak : a = k
    · subst hak
      simp only [rtInsert, if_pos rfl]
      by_cases hq : q = a <;> simp [rtGet, hq]
    · simp only [rtInsert, if_neg hak, rtGet, ih]
      by_cases hq : q = a
      · subst hq
        simp [hak]
      · simp [hq]

/-- The three inserts of one backend leave each of its derived keys mapped
to its port (self-collisions are harmless because all three inserts carry
the same value). -/
theorem insertServerKeys_get_triple (m : RTable) (s : Server) (k : String)
    (hk : k ∈ triple s) : rtGet (insertServerKeys m s) k = some s.Port := by
  simp only [triple, List.mem_cons, List.not_mem_nil, or_false] at hk
  simp only [insertServerKeys, rtGet_rtInsert]
  rcases hk with rfl | rfl | rfl <;> split_ifs <;>
    first
      | rfl
      | exact absurd rfl (by assumption)

/-- The three inserts of one backend do not change lookups at keys outside
its derived triple. -/
theorem insertServerKeys_get_other (m : RTable) (s : Server) (k : String)
    (hk : k ∉ triple s) : rtGet (insertServerKeys m s) k = rtGet m k := by
  simp only [triple, List.mem_cons, List.not_mem_nil, or_false] at hk
  push_neg at hk
  simp [insertServerKeys, rtGet_rtInsert, hk.1, hk.2.1, hk.2.2]

/-- Folding the construction loop over backends whose triples all avoid a
key leaves the lookup at that key unchanged. -/
theorem foldl_insertServerKeys_frozen (l : List Server) (m : RTable) (k : String)
    (h : ∀ t ∈ l, k ∉ triple t) :
    rtGet (l.foldl insertServerKeys m) k = rtGet m k := by
  induction l generalizing m with
  | nil => rfl
  | cons s rest ih =>
    simp only [List.foldl_cons]
    rw [ih _ (fun t ht => h t (List.mem_cons_of_mem _ ht)),
      insertServerKeys_get_other _ _ _ (h s (List.mem_cons_self _ _))]

/-- Core of the construction invariant: when the triples of distinct
backends are pairwise disjoint, the construction fold maps every derived
key of every backend to that backend's port. -/
theorem foldl_insertServerKeys_get (l : List Server) (b : Server) (k : String)
    (hd : l.Pairwise disjTriple) (hb : b ∈ l) (hk : k ∈ triple b) :
    ∀ m : RTable, rtGet (l.foldl insertServerKeys m) k = some b.Port := by
  induction l with
  | nil => cases hb
  | cons s rest ih =>
    intro m
    simp only [List.foldl_cons]
    rcases List.mem_cons.mp hb with rfl | hbr
    · rw [foldl_insertServerKeys_frozen rest _ k
        (fun t ht => (List.pairwise_cons.mp hd).1 t ht k hk),
        insertServerKeys_get_triple _ _ _ hk]
    · exact ih (List.pairwise_cons.mp hd).2 hbr (insertServerKeys m s)

/-- Routing-table lookups after `NewProxy` construction, under pairwise
disjoint derived triples. -/
theorem buildPortMap_get (servers : List Server) (b : Server) (k : String)
    (hd : servers.Pairwise disjTriple) (hb : b ∈ servers) (hk : k ∈ triple b) :
    rtGet (buildPortMap servers) k = some b.Port :=
  foldl_insertServerKeys_get servers b k hd hb hk []

/-- Character list of a `/`-prefixed string. -/
theorem slash_append_data (a : String) : ("/" ++ a).data = '/' :: a.data := by
  cases a; rfl

/-- Prepending `/` is injective. -/
theorem slash_append_inj {a b : String} (h : ("/" ++ a : String) = "/" ++ b) :
    a = b := by
  have hd := congrArg String.data h
  rw [slash_append_data, slash_append_data] at hd
  exact strData_inj (List.cons_injective hd)

/-- Disjoint triples force distinct aliases (the `/alias` keys coincide
exactly when the aliases do). -/
theorem disjTriple_alias_ne {s t : Server} (h : disjTriple s t) :
    s.Alias ≠ t.Alias := by
  intro he
  have h1 : ("/" ++ s.Alias) ∈ triple s := by simp [triple]
  refine h _ h1 ?_
  rw [he]
  simp [triple]

/-- Alias-index lookup after an overwrite-insert. -/
theorem amGet_amInsert (m : AMap) (k v q : String) :
    amGet (amInsert m k v) q = if q = k then some v else amGet m q := by
  induction m with
  | nil => simp [amInsert, amGet]
  | cons p rest ih =>
    obtain ⟨a, b⟩ := p
    by_cases hak : a = k
    · subst hak
      simp only [amInsert, if_pos rfl]
      by_cases hq : q = a <;> simp [amGet, hq]
    · simp only [amInsert, if_neg hak, amGet, ih]
      by_cases hq : q = a
      · subst hq
        simp [hak]
      · simp [hq]

/-- Folding the alias-index loop over backends with different aliases
leaves the lookup unchanged. -/
theorem foldl_amInsert_frozen (l : List Server) (m : AMap) (a : String)
    (h : ∀ t ∈ l, t.Alias ≠ a) :
    amGet (l.foldl (fun m s => amInsert m s.Alias s.Path) m) a = amGet m a := by
  induction l generalizing m with
  | nil => rfl
  | cons s rest ih =>
    simp only [List.foldl_cons]
    rw [ih _ (fun t ht => h t (List.mem_cons_of_mem _ ht)), amGet_amInsert,
      if_neg (fun he => h s (List.mem_cons_self _ _) he.symm)]

/-- Alias-index lookups after construction, under pairwise disjoint
triples. -/
theorem foldl_amInsert_get (l : List Server) (b : Server)
    (hd : l.Pairwise disjTriple) (hb : b ∈ l) :
    ∀ m : AMap, amGet (l.foldl (fun m s => amInsert m s.Alias s.Path) m) b.Alias = some b.Path := by
  induction l with
  | nil => cases hb
  | cons s rest ih =>
    intro m
    simp only [List.foldl_cons]
    rcases List.mem_cons.mp hb with rfl | hbr
    · rw [foldl_amInsert_frozen rest _ _
        (fun t ht => (disjTriple_alias_ne ((List.pairwise_cons.mp hd).1 t ht)).symm),
        amGet_amInsert, if_pos rfl]
    · exact ih (List.pairwise_cons.mp hd).2 hbr (amInsert m s.Alias s.Path)

/-- Alias-index lookups after `NewProxy` construction. -/
theorem buildAliasMap_get (servers : List Server) (b : Server)
    (hd : servers.Pairwise disjTriple) (hb : b ∈ servers) :
    amGet (buildAliasMap servers) b.Alias = some b.Path :=
  foldl_amInsert_get servers b hd hb []

/-- A key present after an overwrite-insert was present before or is the
inserted one. -/
theorem mem_rtKeys_rtInsert {m : RTable} {k : String} {v : Int} {x : String}
    (h : x ∈ rtKeys (rtInsert m k v)) : x ∈ rtKeys m ∨ x = k := by
  induction m with
  | nil => simpa [rtInsert, rtKeys] using h
  | cons p rest ih =>
    obtain ⟨a, b⟩ := p
    by_cases hak : a = k
    · subst hak
      simp [rtInsert, rtKeys] at h ⊢
      tauto
    · simp only [rtInsert, if_neg hak, rtKeys, List.map_cons, List.mem_cons] at h ⊢
      rcases h with h | h
      · exact Or.inl (Or.inl h)
      · rcases ih h with h | h
        · exact Or.inl (Or.inr h)
        · exact Or.inr h

/-- Overwrite-insert keeps the keys duplicate-free. -/
theorem rtKeys_rtInsert_nodup {m : RTable} {k : String} {v : Int}
    (h : (rtKeys m).Nodup) : (rtKeys (rtInsert m k v)).Nodup := by
  induction m with
  | nil => simp [rtInsert, rtKeys]
  | cons p rest ih =>
    obtain ⟨a, b⟩ := p
    rw [rtKeys, List.map_cons, List.nodup_cons] at h
    by_cases hak : a = k
    · subst hak
      simpa [rtInsert, rtKeys, List.nodup_cons] using h
    · rw [rtInsert, if_neg hak]
      rw [rtKeys, List.map_cons, List.nodup_cons]
      refine ⟨fun hx => ?_, ih h.2⟩
      rcases mem_rtKeys_rtInsert hx with hx | hx
      · exact h.1 hx
      · exact hak hx


/-- The three inserts of one backend keep the keys duplicate-free. -/
theorem insertServerKeys_keys_nodup {m : RTable} (s : Server)
    (h : (rtKeys m).Nodup) : (rtKeys (insertServerKeys m s)).Nodup :=
  rtKeys_rtInsert_nodup (rtKeys_rtInsert_nodup (rtKeys_rtInsert_nodup h))

/-- The whole construction fold keeps the keys duplicate-free. -/
theorem foldl_insertServerKeys_keys_nodup (l : List Server) :
    ∀ m : RTable, (rtKeys m).Nodup → (rtKeys (l.foldl insertServerKeys m)).Nodup := by
  induction l with
  | nil => exact fun m h => h
  | cons s rest ih =>
    intro m h
    exact ih (insertServerKeys m s) (insertServerKeys_keys_nodup s h)

/-- The routing table built by `NewProxy` has duplicate-free keys. -/
theorem buildPortMap_keys_nodup (servers : List Server) :
    (rtKeys (buildPortMap servers)).Nodup :=
  foldl_insertServerKeys_keys_nodup servers [] (by simp [rtKeys])

/-- A longest-prefix result is a stored binding whose key leads the
query. -/
theorem rtLongest_mem {m : RTable} {q : String} {c : String × Int}
    (h : rtLongest m q = some c) : c ∈ m ∧ chIsPref c.1.data q.data = true := by
  induction m with
  | nil => simp [rtLongest] at h
  | cons p rest ih =>
    obtain ⟨a, v⟩ := p
    cases hr : rtLongest rest q with
    | none =>
      simp only [rtLongest, hr] at h
      split at h
      · cases h
        rename_i hp
        exact ⟨List.mem_cons_self _ _, hp⟩
      · cases h
    | some d =>
      simp only [rtLongest, hr] at h
      split at h
      · cases h
        rename_i hcond
        simp only [Bool.and_eq_true] at hcond
        exact ⟨List.mem_cons_self _ _, hcond.1⟩
      · cases h
        have hd := ih hr
        exact ⟨List.mem_cons_of_mem _ hd.1, hd.2⟩

/-- When the query itself is a stored key of a duplicate-free table, the
longest-prefix lookup returns exactly that binding (no other prefix of the
query can be as long). -/
theorem rtLongest_exact {m : RTable} {q : String} {v : Int}
    (hn : (rtKeys m).Nodup) (hg : rtGet m q = some v) :
    rtLongest m q = some (q, v) := by
  induction m with
  | nil => simp [rtGet] at hg
  | cons p rest ih =>
    obtain ⟨a, b⟩ := p
    rw [rtKeys, List.map_cons, List.nodup_cons] at hn
    by_cases hqa : q = a
    · subst hqa
      have hv : b = v := by simpa [rtGet] using hg
      subst hv
      cases hr : rtLongest rest q with
      | none => simp [rtLongest, hr, chIsPref_refl]
      | some c =>
        simp only [rtLongest, hr]
        have hc := rtLongest_mem hr
        have hclen := chIsPref_length hc.2
        have hne : c.1 ≠ q := by
          intro he
          have hmem : c.1 ∈ List.map Prod.fst rest := List.mem_map_of_mem Prod.fst hc.1
          rw [he] at hmem
          exact hn.1 hmem
        have hlt : c.1.data.length < q.data.length := by
          rcases Nat.lt_or_ge c.1.data.length q.data.length with h | h
          · exact h
          · exact absurd (strData_inj (chIsPref_eq_of_length hc.2
              (Nat.le_antisymm hclen h))) hne
        have hcond : (chIsPref q.data q.data
            && decide (c.1.data.length < q.data.length)) = true := by
          rw [chIsPref_refl, decide_eq_true hlt, Bool.and_self]
        rw [if_pos hcond]
    · have hg' : rtGet rest q = some v := by simpa [rtGet, hqa] using hg
      have ihr := ih hn.2 hg'
      rw [rtLongest.eq_def]
      simp only [ihr]
      have hcond : (chIsPref a.data q.data
          && decide ((q, v).1.data.length < a.data.length)) = false := by
        by_cases hp : chIsPref a.data q.data = true
        · have hle := chIsPref_length hp
          have hnlt : ¬ (q, v).1.data.length < a.data.length := Nat.not_lt.mpr hle
          rw [hp, decide_eq_false hnlt, Bool.and_false]
        · rw [Bool.not_eq_true] at hp
          rw [hp, Bool.false_and]
      rw [if_neg (by rw [hcond]; exact Bool.false_ne_true)]

/-- Claim C1 (amended): the routing-triple invariant — every backend's
path, parent directory and `/alias` keys map to its port and its alias
maps to its path — holds after construction and is preserved by every
successful registration, provided the derived key triples of distinct
backends are pairwise disjoint; without that proviso a later backend's
insert overwrites a shared key (see the counterexample). -/
theorem registry_triple_invariant_amended :
    (∀ servers : List Server, servers.Pairwise disjTriple →
      registryInvariant (newProxy servers)) ∧
    (∀ (st : ProxyState) (data : RegisterRequest) (port : Int) (st' : ProxyState),
      registryInvariant st →
      atoi data.Port = some port →
      (∀ b ∈ st.servers, disjTriple b ⟨data.Folder, data.Name, port⟩) →
      registerHandler st (some data) = (st', HttpOut.ok) →
      registryInvariant st') := by
  constructor
  · intro servers hd b hb
    exact ⟨fun k hk => buildPortMap_get servers b k hd hb hk,
      buildAliasMap_get servers b hd hb⟩
  · intro st data port st' hinv hatoi hdisj heq
    simp only [registerHandler, hatoi] at heq
    by_cases hfc : findConflict st.servers data.Name port = true
    · rw [if_pos hfc] at heq
      exact absurd (congrArg Prod.snd heq) (by simp)
    · rw [if_neg hfc] at heq
      have hst : st' = registerSuccessState st data port := by
        simpa using (congrArg Prod.fst heq).symm
      subst hst
      intro b hb
      simp only [registerSuccessState, List.mem_append, List.mem_singleton] at hb
      rcases hb with hb | hb
      · refine ⟨fun k hk => ?_, ?_⟩
        · exact (insertServerKeys_get_other st.portMap _ k
            (hdisj b hb k hk)).trans ((hinv b hb).1 k hk)
        · rw [show (registerSuccessState st data port).aliasToPath =
              amInsert st.aliasToPath data.Name data.Folder from rfl,
            amGet_amInsert, if_neg (disjTriple_alias_ne (hdisj b hb)),
            (hinv b hb).2]
      · subst hb
        refine ⟨fun k hk => insertServerKeys_get_triple _ _ _ hk, ?_⟩
        rw [show (registerSuccessState st data port).aliasToPath =
            amInsert st.aliasToPath data.Name data.Folder from rfl,
          amGet_amInsert, if_pos rfl]

/-- Claim C1 counterexample: with the legitimate initial backend set
`[{/a/b, x, 1}, {/a/c, y, 2}]` (distinct aliases, distinct ports), the
parent-directory key `/a` of the first backend is overwritten by the
second backend's insert, so after construction it maps to port 2, not to
port 1 as the claimed invariant requires. -/
theorem registry_triple_claim_counterexample :
    (⟨"/a/b", "x", 1⟩ : Server) ∈ clashServers ∧
    pathDir "/a/b" ∈ triple (⟨"/a/b", "x", 1⟩ : Server) ∧
    rtGet (newProxy clashServers).portMap (pathDir "/a/b") = some 2 ∧
    (2 : Int) ≠ 1 :=
  ⟨by decide, by decide, by decide, by decide⟩

/-- Claim C1 witness: the amended invariant evaluated on the scenario
backend set. -/
theorem registry_triple_invariant_amended_witness :
    registryInvariant (newProxy [⟨"/a/b", "proj1", 9000⟩]) :=
  registry_triple_invariant_amended.1 _ (by decide)

/-- Claim C2: the resolution and path-cleaning scenario — `/a/b/c/file.txt`
resolves to port 9000 with cleaned path `/c/file.txt`, `/proj1/file.txt`
resolves to port 9000 with cleaned path `/file.txt`, `/unrelated` has no
prefix match and falls back to the first-registered backend's port, and a
request with a non-empty parsed referer path is resolved against that
path in place of its own. -/
theorem resolution_and_cleaning_scenario :
    (getPort sampleState "/a/b/c/file.txt" "" = PortResult.ok 9000 ∧
      cleanRequestPath sampleState "/a/b/c/file.txt" = "/c/file.txt") ∧
    (getPort sampleState "/proj1/file.txt" "" = PortResult.ok 9000 ∧
      cleanRequestPath sampleState "/proj1/file.txt" = "/file.txt") ∧
    (rtLongest sampleState.portMap "/unrelated" = none ∧
      getPort sampleState "/unrelated" "" = PortResult.ok 9000 ∧
      (sampleState.servers.head?.map Server.Port) = some 9000) ∧
    (∀ (st : ProxyState) (uri ref p : String),
      ref ≠ "" → urlParse ref = some p → p ≠ "" →
      getPort st uri ref = getPort st p "") := by
  refine ⟨by decide, by decide, by decide, ?_⟩
  intro st uri ref p href hparse hp
  simp [getPort, href, hparse]

/-- Claim C2 witness: the referer-override conjunct evaluated on the
scenario — a `/main.css` request with referer `http://localhost/proj1` is
resolved exactly as a request for `/proj1` itself. -/
theorem resolution_and_cleaning_scenario_witness :
    getPort sampleState "/main.css" "http://localhost/proj1" =
      getPort sampleState "/proj1" "" :=
  resolution_and_cleaning_scenario.2.2.2 sampleState "/main.css"
    "http://localhost/proj1" "/proj1" (by decide) (by decide) (by decide)

/-- Claim C3 (amended): registration failures never mutate the registry
triple, but only the duplicate-alias/duplicate-port conflict answers 400;
a malformed body or a non-integer port string makes the handler log and
return without writing any status (the caller sees the server's implicit
200 empty response); success answers 200 with the backend appended. -/
theorem register_failure_atomicity_amended (st : ProxyState)
    (body : Option RegisterRequest) :
    ((registerHandler st body).2 ≠ HttpOut.ok → (registerHandler st body).1 = st) ∧
    (body = none → registerHandler st body = (st, HttpOut.noStatus)) ∧
    (∀ data, body = some data → atoi data.Port = none →
      registerHandler st body = (st, HttpOut.noStatus)) ∧
    (∀ data port, body = some data → atoi data.Port = some port →
      findConflict st.servers data.Name port = true →
      registerHandler st body =
        (st, HttpOut.badRequest ("Name " ++ data.Name ++ " is in use"))) ∧
    (∀ data port, body = some data → atoi data.Port = some port →
      findConflict st.servers data.Name port = false →
      registerHandler st body = (registerSuccessState st data port, HttpOut.ok)) := by
  refine ⟨?_, ?_, ?_, ?_, ?_⟩
  · intro hne
    cases body with
    | none => rfl
    | some data =>
      cases hat : atoi data.Port with
      | none => simp [registerHandler, hat]
      | some port =>
        by_cases hfc : findConflict st.servers data.Name port = true
        · simp [registerHandler, hat, hfc]
        · exact absurd (show (registerHandler st (some data)).2 = HttpOut.ok by
            simp [registerHandler, hat, hfc]) hne
  · rintro rfl
    rfl
  · rintro data rfl hat
    simp [registerHandler, hat]
  · rintro data port rfl hat hfc
    simp [registerHandler, hat, hfc]
  · rintro data port rfl hat hfc
    simp [registerHandler, hat, hfc]

/-- Claim C3 counterexample: a registration whose port string `abc` is not
an integer is answered with no explicit status at all (never a 400), the
state being left unchanged; so the claim's `responds 400` is false for
this failure class. -/
theorem register_failure_status_counterexample :
    (registerHandler sampleState (some ⟨"/x", "p2", "abc"⟩)).2 = HttpOut.noStatus ∧
    (registerHandler sampleState (some ⟨"/x", "p2", "abc"⟩)).1 = sampleState ∧
    (registerHandler sampleState none).2 = HttpOut.noStatus ∧
    (¬ ∃ msg, (registerHandler sampleState (some ⟨"/x", "p2", "abc"⟩)).2 =
      HttpOut.badRequest msg) := by
  refine ⟨by decide, by decide, by decide, ?_⟩
  rintro ⟨msg, h⟩
  rw [show (registerHandler sampleState (some ⟨"/x", "p2", "abc"⟩)).2 =
    HttpOut.noStatus from by decide] at h
  cases h

/-- Claim C3 witness: a well-formed, conflict-free registration evaluated
concretely — it succeeds with a 200. -/
theorem register_failure_atomicity_amended_witness :
    registerHandler (newProxy []) (some ⟨"/x", "p2", "9001"⟩) =
      (registerSuccessState (newProxy []) ⟨"/x", "p2", "9001"⟩ 9001, HttpOut.ok) :=
  (register_failure_atomicity_amended (newProxy [])
      (some ⟨"/x", "p2", "9001"⟩)).2.2.2.2 ⟨"/x", "p2", "9001"⟩ 9001 rfl
    (by decide) (by decide)

/-- Claim C5 (amended): the probe state is `OK` exactly for a response
with status exactly 200 (not any 2xx) whose body decodes to a non-empty
hostname; transport errors, non-200 statuses and an empty hostname give
`NOT OK` with no error; but a read or unmarshal failure on a 200 response
makes the check fail the caller with an empty state and the error, rather
than `NOT OK`. -/
theorem health_probe_classification_amended (probe : ProbeResult) :
    ((checkCodeServerStatus probe).1 = "OK" ↔
      ∃ h, probe = ProbeResult.response 200 (PingBody.ping h) ∧ h ≠ "") ∧
    (∀ e, probe = ProbeResult.transportError e →
      checkCodeServerStatus probe = ("NOT OK", none)) ∧
    (∀ status pbody, probe = ProbeResult.response status pbody → status ≠ 200 →
      checkCodeServerStatus probe = ("NOT OK", none)) ∧
    (∀ e, probe = ProbeResult.response 200 (PingBody.readError e) →
      checkCodeServerStatus probe = ("", some e)) ∧
    (∀ e, probe = ProbeResult.response 200 (PingBody.malformed e) →
      checkCodeServerStatus probe = ("", some e)) ∧
    (probe = ProbeResult.response 200 (PingBody.ping "") →
      checkCodeServerStatus probe = ("NOT OK", none)) := by
  refine ⟨?_, ?_, ?_, ?_, ?_, ?_⟩
  · cases probe with
    | transportError e => simp [checkCodeServerStatus]
    | response status pbody =>
      by_cases hs : status = 200
      · subst hs
        cases pbody with
        | readError e => simp [checkCodeServerStatus]
        | malformed e => simp [checkCodeServerStatus]
        | ping h =>
          by_cases hh : h = ""
          · subst hh
            simp [checkCodeServerStatus]
          · simp [checkCodeServerStatus, hh]
      · simp [checkCodeServerStatus, hs]
  · rintro e rfl
    rfl
  · rintro status pbody rfl hs
    simp [checkCodeServerStatus, hs]
  · rintro e rfl
    rfl
  · rintro e rfl
    rfl
  · rintro rfl
    simp [checkCodeServerStatus]

/-- Claim C5 counterexample: a 201 response with a valid non-empty
hostname is classified `NOT OK` (the code tests status 200 exactly, not
2xx), and a 200 response with an undecodable body yields the empty state
together with an error — not `NOT OK` — failing the caller. -/
theorem health_probe_classification_counterexample :
    checkCodeServerStatus (ProbeResult.response 201 (PingBody.ping "devbox")) =
      ("NOT OK", none) ∧
    (200 ≤ 201 ∧ 201 < 300) ∧
    checkCodeServerStatus (ProbeResult.response 200 (PingBody.malformed "bad json")) =
      ("", some "bad json") ∧
    ("NOT OK" : String) ≠ "OK" ∧ ("" : String) ≠ "NOT OK" := by decide

/-- Claim C5 witness: a healthy probe evaluated concretely. -/
theorem health_probe_classification_amended_witness :
    (checkCodeServerStatus (ProbeResult.response 200 (PingBody.ping "devbox"))).1 = "OK" :=
  (health_probe_classification_amended
      (ProbeResult.response 200 (PingBody.ping "devbox"))).1.mpr
    ⟨"devbox", rfl, by decide⟩

/-- Claim C6 (amended): the outbound request carries the original method,
headers and the cleaned path to `localhost:port`; but a transport error is
answered 500 (not 502), and the backend's status code is never copied —
the response is committed with the implicit status 200 while the
backend's headers and body are copied verbatim; a body-copy failure
invokes the 500 error path. -/
theorem plain_http_forwarding_amended (st : ProxyState) (method : String)
    (headers : List (String × String)) (uri ref : String)
    (doRes : OutboundRequest → DoResult) (port : Int)
    (hp : getPort st uri ref = PortResult.ok port) :
    (∀ e, doRes ⟨method, headers, port, cleanRequestPath st uri⟩ =
        DoResult.transportError e →
      forwardRequestHandler st method headers uri ref doRes =
        ForwardOutcome.errorStatus 500) ∧
    (∀ status rh rbody, doRes ⟨method, headers, port, cleanRequestPath st uri⟩ =
        DoResult.response status rh rbody false →
      forwardRequestHandler st method headers uri ref doRes =
        ForwardOutcome.success ⟨method, headers, port, cleanRequestPath st uri⟩
          200 rh rbody) ∧
    (∀ status rh rbody, doRes ⟨method, headers, port, cleanRequestPath st uri⟩ =
        DoResult.response status rh rbody true →
      forwardRequestHandler st method headers uri ref doRes =
        ForwardOutcome.copyError ⟨method, headers, port, cleanRequestPath st uri⟩
          500) := by
  refine ⟨?_, ?_, ?_⟩
  · intro e hdo
    simp [forwardRequestHandler, hp, hdo]
  · intro status rh rbody hdo
    simp [forwardRequestHandler, hp, hdo]
  · intro status rh rbody hdo
    simp [forwardRequestHandler, hp, hdo]

/-- Claim C6 counterexample: a transport failure is answered 500, not the
claimed 502-class status; and a backend 404 response reaches the caller
with written status 200, not the backend's status. -/
theorem plain_http_forwarding_counterexample :
    forwardRequestHandler sampleState "GET" [] "/a/b/x" ""
        (fun _ => DoResult.transportError "connection refused") =
      ForwardOutcome.errorStatus 500 ∧
    (500 : Nat) ≠ 502 ∧
    forwardRequestHandler sampleState "GET" [] "/a/b/x" ""
        (fun _ => DoResult.response 404 [] "not found" false) =
      ForwardOutcome.success ⟨"GET", [], 9000, "/x"⟩ 200 [] "not found" ∧
    (200 : Nat) ≠ 404 := by decide

/-- Claim C6 witness: a successful forward evaluated concretely. -/
theorem plain_http_forwarding_amended_witness :
    forwardRequestHandler sampleState "GET" [("Accept", "text/html")] "/a/b/x" ""
        (fun _ => DoResult.response 200 [("X", "y")] "hello" false) =
      ForwardOutcome.success ⟨"GET", [("Accept", "text/html")], 9000, "/x"⟩
        200 [("X", "y")] "hello" :=
  (plain_http_forwarding_amended sampleState "GET" [("Accept", "text/html")]
      "/a/b/x" "" (fun _ => DoResult.response 200 [("X", "y")] "hello" false)
      9000 (by decide)).2.1 200 [("X", "y")] "hello" rfl

/-- Claim C4: the relay loop forwards messages one at a time in order and
reports errors on its channel, but it does not stop at the first error —
its `for` body has no `break` or `return`, so on a source that errors on
every read (a closed connection) the code's loop keeps reading and
reports a second error, where the claimed loop (`transferSpec`, stated
from the specification) stops after one. -/
theorem transfer_loop_code_bug :
    transferRun [TunnelEvent.readErr "use of closed network connection",
        TunnelEvent.readErr "use of closed network connection"] =
      ([], ["use of closed network connection",
            "use of closed network connection"]) ∧
    transferSpec [TunnelEvent.readErr "use of closed network connection",
        TunnelEvent.readErr "use of closed network connection"] =
      ([], ["use of closed network connection"]) ∧
    transferRun [TunnelEvent.msg 1 "frame-1", TunnelEvent.msg 2 "frame-2",
        TunnelEvent.readErr "eof"] =
      ([(1, "frame-1"), (2, "frame-2")], ["eof"]) := by decide

/-- Claim C7 (amended): the upgrade path does not reuse the longest-prefix
resolution of `getPort`: it substitutes the alias through the alias index,
trims one trailing slash, and performs an exact routing-table `Get`.  The
two resolutions agree on a request addressing a backend by its exact
alias with no referer (under the construction's disjoint-triple proviso);
on proper sub-paths the exact `Get` finds nothing (see the
counterexample). -/
theorem upgrade_routing_amended (servers : List Server)
    (hd : servers.Pairwise disjTriple) (b : Server) (hb : b ∈ servers)
    (hslash : strHasSuf b.Path "/" = false) :
    wsResolvePort (newProxy servers) b.Alias = some b.Port ∧
    getPort (newProxy servers) ("/" ++ b.Alias) "" = PortResult.ok b.Port := by
  have hag : amGet (newProxy servers).aliasToPath b.Alias = some b.Path :=
    buildAliasMap_get servers b hd hb
  constructor
  · simp only [wsResolvePort, hag]
    rw [trimSuf, if_neg (by rw [hslash]; exact Bool.false_ne_true)]
    exact buildPortMap_get servers b _ hd hb (by simp [triple])
  · have hget : rtGet (buildPortMap servers) ("/" ++ b.Alias) = some b.Port :=
      buildPortMap_get servers b _ hd hb (by simp [triple])
    have hlp : rtLongest (buildPortMap servers) ("/" ++ b.Alias) =
        some ("/" ++ b.Alias, b.Port) :=
      rtLongest_exact (buildPortMap_keys_nodup servers) hget
    cases hsv : servers with
    | nil =>
      rw [hsv] at hb
      cases hb
    | cons s0 rest =>
      subst hsv
      simp [getPort, newProxy, hlp]

/-- Claim C7 counterexample: on the scenario backend, an upgrade request
for the sub-path `/a/b/c` dials no valid port at all (`Get` is exact and
finds nothing, leaving the nil port), while the plain-HTTP resolution of
the same request path yields 9000. -/
theorem upgrade_routing_counterexample :
    wsResolvePort sampleState "a/b/c" = none ∧
    getPort sampleState "/a/b/c" "" = PortResult.ok 9000 ∧
    (none : Option Int) ≠ some 9000 := by decide

/-- Claim C7 witness: the agreement of the two resolutions on an
exact-alias upgrade request, evaluated on the scenario backend. -/
theorem upgrade_routing_amended_witness :
    wsResolvePort (newProxy [⟨"/a/b", "proj1", 9000⟩]) "proj1" = some 9000 ∧
    getPort (newProxy [⟨"/a/b", "proj1", 9000⟩]) ("/" ++ "proj1") "" =
      PortResult.ok 9000 :=
  upgrade_routing_amended [⟨"/a/b", "proj1", 9000⟩] (by decide)
    ⟨"/a/b", "proj1", 9000⟩ (by decide) (by decide)

/-- Claim C8 (amended): a forwarded request whose Referer header is absent
or parseable, against a non-empty backend collection, always ends in a
definite HTTP outcome; but a request carrying an unparseable Referer
terminates the process through the fatal log in `getPort`, and a
healthcheck whose aggregate response failed to encode would likewise be
fatal rather than answered. -/
theorem no_exit_on_routing_amended (st : ProxyState) (method : String)
    (headers : List (String × String)) (uri ref : String)
    (doRes : OutboundRequest → DoResult)
    (hs : st.servers ≠ [])
    (href : ref = "" ∨ ∃ p, urlParse ref = some p) :
    definiteOutcome (forwardRequestHandler st method headers uri ref doRes) ∧
    (∀ e w, healthCheckHandlerTail (MarshalResult.err e) w = HealthOut.fatal) := by
  constructor
  · have hgp : ∃ port, getPort st uri ref = PortResult.ok port := by
      obtain ⟨s0, rest, hsv⟩ : ∃ s0 rest, st.servers = s0 :: rest := by
        cases h : st.servers with
        | nil => exact absurd h hs
        | cons a l => exact ⟨a, l, rfl⟩
      have hpath : ∃ p, (if ref = "" then some uri else urlParse ref) = some p := by
        by_cases hre : ref = ""
        · exact ⟨uri, by simp [hre]⟩
        · rcases href with h | ⟨p, hp⟩
          · exact absurd h hre
          · exact ⟨p, by simp [hre, hp]⟩
      obtain ⟨p, hpath⟩ := hpath
      refine ⟨(match rtLongest st.portMap p with
               | some c => c.2
               | none => s0.Port), ?_⟩
      simp [getPort, hpath, hsv]
    obtain ⟨port, hgp⟩ := hgp
    simp only [forwardRequestHandler, hgp]
    cases hdo : doRes ⟨method, headers, port, cleanRequestPath st uri⟩ with
    | transportError e => simp [definiteOutcome, hdo]
    | response status rh rbody copyErr =>
      cases copyErr <;> simp [definiteOutcome, hdo]
  · intro e w
    rfl

/-- Claim C8 counterexample: a request whose Referer contains an ASCII
control character makes `url.Parse` fail and the handler `logger.Fatalf`
— the process terminates instead of answering; the healthcheck
marshal-failure branch is fatal as well. -/
theorem no_exit_on_routing_counterexample :
    urlParse "http://a\x01b" = none ∧
    forwardRequestHandler sampleState "GET" [] "/x" "http://a\x01b"
        (fun _ => DoResult.transportError "refused") = ForwardOutcome.fatal ∧
    healthCheckHandlerTail (MarshalResult.err "marshal failure") true =
      HealthOut.fatal := by decide

/-- Claim C8 witness: a referer-free forwarded request evaluated
concretely ends in a definite outcome. -/
theorem no_exit_on_routing_amended_witness :
    definiteOutcome (forwardRequestHandler sampleState "GET" [] "/x" ""
      (fun _ => DoResult.transportError "refused")) :=
  (no_exit_on_routing_amended sampleState "GET" [] "/x" ""
      (fun _ => DoResult.transportError "refused") (by decide) (Or.inl rfl)).1

/-- Claim C9: the registry has no lock at all — `Proxy` carries no mutex
and `removeHandler` mutates the collection, the routing table and the
alias index in three separate steps — so a dispatch interleaved between
the routing-table deletion (step 2) and the alias-index deletion (step 3)
observes an alias-index entry whose `/alias` routing entry is already
gone: exactly the partial state the claim says can never be observed. -/
theorem concurrent_registry_code_bug :
    removeHandler sampleState "proj1" =
      (removeStep3 "proj1" (removeStep2 "proj1" (removeStep1 "proj1" sampleState)),
        HttpOut.noContent) ∧
    amGet (removeStep2 "proj1" (removeStep1 "proj1" sampleState)).aliasToPath
      "proj1" = some "/a/b" ∧
    rtGet (removeStep2 "proj1" (removeStep1 "proj1" sampleState)).portMap
      "/proj1" = none ∧
    ¬ tripleConsistent (removeStep2 "proj1" (removeStep1 "proj1" sampleState)) := by
  refine ⟨by decide, by decide, by decide, ?_⟩
  intro h
  obtain ⟨v, hv⟩ := h "proj1" "/a/b" (by decide)
  rw [show ("/" ++ "proj1" : String) = "/proj1" from rfl] at hv
  rw [show rtGet (removeStep2 "proj1" (removeStep1 "proj1" sampleState)).portMap
    "/proj1" = none from by decide] at hv
  cases hv

/-- Claim C10: with an empty backend collection, `getPort` reads
`Servers[0]` unconditionally and panics for every request whose Referer
is absent or parseable (a malformed Referer is fatal even earlier), so no
port and no definite error is ever produced; the empty collection is
reachable by removing the last backend through the removal endpoint. -/
theorem empty_collection_panic (st : ProxyState) (uri ref : String)
    (hs : st.servers = [])
    (href : ref = "" ∨ ∃ p, urlParse ref = some p) :
    getPort st uri ref = PortResult.panicked ∧
    (∀ port, getPort st uri ref ≠ PortResult.ok port) ∧
    (∀ (method : String) (headers : List (String × String))
        (doRes : OutboundRequest → DoResult),
      forwardRequestHandler st method headers uri ref doRes =
        ForwardOutcome.panicked) ∧
    (removeHandler sampleState "proj1").1.servers = [] := by
  have hgp : getPort st uri ref = PortResult.panicked := by
    rcases href with rfl | ⟨p, hp⟩
    · simp [getPort, hs]
    · by_cases hre : ref = ""
      · simp [getPort, hre, hs]
      · simp [getPort, hre, hp, hs]
  refine ⟨hgp, ?_, ?_, by decide⟩
  · intro port h
    rw [hgp] at h
    cases h
  · intro method headers doRes
    simp [forwardRequestHandler, hgp]

/-- Claim C10 witness: a proxy started on an empty configuration panics on
the first resolution. -/
theorem empty_collection_panic_witness :
    getPort (newProxy []) "/x" "" = PortResult.panicked :=
  (empty_collection_panic (newProxy []) "/x" "" rfl (Or.inl rfl)).1

end CSP
